import Mathlib

/-!
Shallow embedding of the relational aggregation subsystem of the
sentiment-analysis platform (PostgreSQL init script: `sentiment_to_numeric`,
`calculate_sentiment_trend`, `analyze_keyword_frequency`,
`company_sentiment_summary`, `update_sentiment_trends` +
`trigger_update_sentiment_trends`, `create_monthly_partition`).

Dates are modelled as integers (one unit = one day, matching `DATE(...)`
granularity).  SQL `NULL`-able columns are `Option`s.  SQL `NUMERIC`
arithmetic is modelled exactly over `ℚ`; `ROUND(x, 2)` is rounding half away
from zero at two decimals, as PostgreSQL `numeric` rounding does.
-/

namespace SentimentPlatform

/-- an article row of `news_articles`; only the columns the aggregation
subsystem reads are modelled. -/
structure Article where
  id : Nat
  company_id : Nat
  published_date : Int
  sentiment_score : Option String
  stakeholder_type : Option String
  keywords : Option (List String)
deriving DecidableEq

/-- a row of `companies`; only the columns read by the summary view. -/
structure Company where
  id : Nat
  name : String
  stock_code : Option String
  is_active : Bool
deriving DecidableEq

/-- the `sentiment_to_numeric` PL/pgSQL function.  The simple `CASE`
compares the argument against each label in order; a SQL `NULL` argument
compares unequal to every label, so it falls through to `ELSE RETURN 0`,
as does any unrecognized label. -/
def sentiment_to_numeric (sentiment_text : Option String) : Int :=
  if sentiment_text = some "very_negative" then -2
  else if sentiment_text = some "negative" then -1
  else if sentiment_text = some "neutral" then 0
  else if sentiment_text = some "positive" then 1
  else if sentiment_text = some "very_positive" then 2
  else 0

/-- the label-to-value table of the spec, stated on plain (non-null) labels;
used to cross-check `sentiment_to_numeric`'s treatment of `NULL`. -/
def sentiment_label_value (s : String) : Int :=
  if s = "very_negative" then -2
  else if s = "negative" then -1
  else if s = "neutral" then 0
  else if s = "positive" then 1
  else if s = "very_positive" then 2
  else 0

/-- rounding half away from zero to an integer, as PostgreSQL `ROUND` on
`numeric` does. -/
def roundHalfAwayFromZero (q : ℚ) : Int :=
  if q < 0 then -(Rat.floor (-q + 1/2)) else Rat.floor (q + 1/2)

/-- `ROUND(q, 2)` on `numeric`. -/
def round2 (q : ℚ) : ℚ := (roundHalfAwayFromZero (q * 100) : ℚ) / 100

/-! ## Trend maintenance trigger and the aggregate store -/

/-- a row of the `sentiment_trends` table (the TrendBucket), aggregate
fields only; the key lives beside it in the store. -/
structure TrendBucketRow where
  total_articles : Nat
  positive_count : Nat
  negative_count : Nat
  neutral_count : Nat
  avg_sentiment_score : ℚ
deriving DecidableEq

/-- the `(company_id, stakeholder_type, date)` key of `sentiment_trends`. -/
abbrev BucketKey := Nat × String × Int

/-- the aggregate store: the rows of `sentiment_trends`, keyed. -/
abbrev BucketStore := List (BucketKey × TrendBucketRow)

/-- the `WHERE` clause of the trigger's recompute `SELECT`: articles sharing
`(company_id, stakeholder_type, DATE(published_date))` with the written row,
restricted to non-null `sentiment_score`. -/
def matchesKey (c : Nat) (st : String) (d : Int) (a : Article) : Bool :=
  a.company_id == c && a.stakeholder_type == some st &&
    a.published_date == d && a.sentiment_score.isSome

/-- the articles the trigger's recompute `SELECT` ranges over for one key. -/
def keyFilter (arts : List Article) (c : Nat) (st : String) (d : Int) : List Article :=
  arts.filter (matchesKey c st d)

/-- the aggregate row the trigger's `SELECT` computes for one key:
`COUNT(*)`, the three `COUNT(*) FILTER` classes by the sign of the mapped
value, and `AVG` of the mapped values. -/
def computeBucket (arts : List Article) (c : Nat) (st : String) (d : Int) : TrendBucketRow :=
  let rows := keyFilter arts c st d
  let vals := rows.map (fun a => sentiment_to_numeric a.sentiment_score)
  { total_articles := rows.length
    positive_count := vals.countP (fun v => decide (0 < v))
    negative_count := vals.countP (fun v => decide (v < 0))
    neutral_count := vals.countP (fun v => decide (v = 0))
    avg_sentiment_score := (vals.sum : ℚ) / (rows.length : ℚ) }

/-- `INSERT ... ON CONFLICT (key) DO UPDATE SET ...`: replace the row at the
key if present, append it otherwise. -/
def upsertBucket (store : BucketStore) (k : BucketKey) (v : TrendBucketRow) : BucketStore :=
  if store.any (fun e => e.1 == k) then
    store.map (fun e => if e.1 == k then (k, v) else e)
  else store ++ [(k, v)]

/-- lookup of the aggregate row stored at a key. -/
def lookupBucket (store : BucketStore) (k : BucketKey) : Option TrendBucketRow :=
  (store.find? (fun e => e.1 == k)).map (fun e => e.2)

/-- the `update_sentiment_trends` trigger function guarded by the trigger's
`WHEN (NEW.sentiment_score IS NOT NULL AND NEW.stakeholder_type IS NOT NULL)`
clause.  `arts` is the article table as visible after the write (it contains
the `NEW` row).  When the guard passes, the recompute `SELECT` runs; it
upserts one row unless it selects no articles (then the `INSERT ... SELECT`
inserts nothing). -/
def fireTrigger (arts : List Article) (newRow : Article) (store : BucketStore) : BucketStore :=
  match newRow.sentiment_score, newRow.stakeholder_type with
  | some _, some st =>
      if (keyFilter arts newRow.company_id st newRow.published_date).isEmpty then store
      else upsertBucket store (newRow.company_id, st, newRow.published_date)
             (computeBucket arts newRow.company_id st newRow.published_date)
  | _, _ => store

/-- database state: the `news_articles` table plus the `sentiment_trends`
aggregate store. -/
structure DBState where
  articles : List Article
  buckets : BucketStore
deriving DecidableEq

/-- the empty database. -/
def emptyDB : DBState := { articles := [], buckets := [] }

/-- an `INSERT` into `news_articles` followed by the `AFTER INSERT` row
trigger. -/
def applyInsert (s : DBState) (a : Article) : DBState :=
  let arts := s.articles ++ [a]
  { articles := arts, buckets := fireTrigger arts a s.buckets }

/-- an `UPDATE news_articles SET sentiment_score = .., stakeholder_type = ..
WHERE id = ..` followed by the `AFTER UPDATE OF sentiment_score,
stakeholder_type` row trigger, fired once per updated row. -/
def applyUpdate (s : DBState) (id : Nat) (sent st : Option String) : DBState :=
  let arts := s.articles.map (fun a =>
    if a.id == id then { a with sentiment_score := sent, stakeholder_type := st } else a)
  let store := (arts.filter (fun a => a.id == id)).foldl
    (fun b row => fireTrigger arts row b) s.buckets
  { articles := arts, buckets := store }

/-- replay a history of inserts from the empty database. -/
def replayInserts (l : List Article) : DBState := l.foldl applyInsert emptyDB

/-- sum of `total_articles` over every stored bucket of one company and one
date (all stakeholders): the from-scratch daily total over the aggregate
store. -/
def bucketTotalsFor (store : BucketStore) (c : Nat) (d : Int) : Nat :=
  ((store.filter (fun e => e.1.1 == c && e.1.2.2 == d)).map
    (fun e => e.2.total_articles)).sum

/-! ## Trend query function -/

/-- a result row of `calculate_sentiment_trend`. -/
structure TrendRow where
  date : Int
  avg_sentiment : ℚ
  article_count : Nat
  positive_ratio : ℚ
deriving DecidableEq

/-- the stakeholder clause
`(p_stakeholder_type IS NULL OR na.stakeholder_type::TEXT = p_stakeholder_type)`;
a row with `NULL` stakeholder fails the equality comparison. -/
def stakeholderOk (stF : Option String) (a : Article) : Bool :=
  match stF with
  | none => true
  | some st => a.stakeholder_type == some st

/-- the full `WHERE` clause of `calculate_sentiment_trend`, specialised to
one day `d` of the grouped range. -/
def trendFilter (c : Nat) (stF : Option String) (d : Int) (a : Article) : Bool :=
  a.company_id == c && stakeholderOk stF a &&
    a.published_date == d && a.sentiment_score.isSome

/-- the day predicate of `calculate_sentiment_trend` with no stakeholder
filter: company, publish day, non-null label. -/
def qualifies (c : Nat) (d : Int) (a : Article) : Bool :=
  a.company_id == c && a.published_date == d && a.sentiment_score.isSome

/-- the inclusive day range `BETWEEN p_start_date AND p_end_date`, in
ascending order. -/
def dateRange (sD eD : Int) : List Int :=
  (List.range (eD + 1 - sD).toNat).map (fun i : Nat => sD + (i : Int))

/-- one day's group of `calculate_sentiment_trend`: `none` when no article
qualifies (`GROUP BY` produces no group), otherwise `ROUND(AVG(mapped), 2)`,
`COUNT(*)`, and `ROUND(COUNT(*) FILTER (mapped > 0) / COUNT(*) * 100, 2)`. -/
def trendRowFor (arts : List Article) (c : Nat) (stF : Option String) (d : Int) :
    Option TrendRow :=
  let rows := arts.filter (trendFilter c stF d)
  if rows.isEmpty then none
  else
    let vals := rows.map (fun a => sentiment_to_numeric a.sentiment_score)
    some { date := d
           avg_sentiment := round2 ((vals.sum : ℚ) / (rows.length : ℚ))
           article_count := rows.length
           positive_ratio :=
             round2 (((vals.countP (fun v => decide (0 < v)) : ℚ) /
               (rows.length : ℚ)) * 100) }

/-- the `calculate_sentiment_trend` function: one row per day of the range
with at least one qualifying article, grouped and ordered by date. -/
def calculate_sentiment_trend (arts : List Article) (c : Nat) (stF : Option String)
    (sD eD : Int) : List TrendRow :=
  (dateRange sD eD).filterMap (trendRowFor arts c stF)

/-! ## Keyword frequency analyzer -/

/-- a result row of `analyze_keyword_frequency`. -/
structure KeywordRow where
  keyword : String
  frequency : Nat
  avg_sentiment : ℚ
deriving DecidableEq

/-- the keyword-list expansion
`FROM news_articles na, jsonb_array_elements_text(na.keywords)` restricted by
the `WHERE` clause (company, inclusive date range, non-null keyword list,
non-null label): one `(keyword, mapped value)` pair per article-keyword
occurrence. -/
def keywordPairs (arts : List Article) (c : Nat) (sD eD : Int) : List (String × Int) :=
  (arts.filter (fun a => a.company_id == c &&
      decide (sD ≤ a.published_date) && decide (a.published_date ≤ eD) &&
      a.keywords.isSome && a.sentiment_score.isSome)).flatMap
    (fun a => (a.keywords.getD []).map (fun k => (k, sentiment_to_numeric a.sentiment_score)))

/-- the grouped row for one keyword: `COUNT(*)` and `ROUND(AVG(mapped), 2)`
over the pairs carrying that keyword. -/
def keywordRowFor (pairs : List (String × Int)) (k : String) : KeywordRow :=
  let vs := (pairs.filter (fun p => p.1 == k)).map (fun p => p.2)
  { keyword := k
    frequency := vs.length
    avg_sentiment := round2 ((vs.sum : ℚ) / (vs.length : ℚ)) }

/-- the `ORDER BY frequency DESC, avg_sentiment DESC` ordering. -/
def kwOrder (r1 r2 : KeywordRow) : Prop :=
  r2.frequency < r1.frequency ∨
    (r1.frequency = r2.frequency ∧ r2.avg_sentiment ≤ r1.avg_sentiment)

instance : DecidableRel kwOrder := fun r1 r2 => by
  unfold kwOrder; infer_instance

instance : IsTotal KeywordRow kwOrder where
  total r1 r2 := by
    unfold kwOrder
    rcases Nat.lt_trichotomy r1.frequency r2.frequency with h | h | h
    · exact Or.inr (Or.inl h)
    · rcases le_total r2.avg_sentiment r1.avg_sentiment with h2 | h2
      · exact Or.inl (Or.inr ⟨h, h2⟩)
      · exact Or.inr (Or.inr ⟨h.symm, h2⟩)
    · exact Or.inl (Or.inl h)

instance : IsTrans KeywordRow kwOrder where
  trans r1 r2 r3 h12 h23 := by
    unfold kwOrder at *
    rcases h12 with h12 | ⟨e12, a12⟩
    · rcases h23 with h23 | ⟨e23, a23⟩
      · exact Or.inl (h23.trans h12)
      · exact Or.inl (by omega)
    · rcases h23 with h23 | ⟨e23, a23⟩
      · exact Or.inl (by omega)
      · exact Or.inr ⟨e12.trans e23, a23.trans a12⟩

/-- the `analyze_keyword_frequency` function: group the keyword expansion by
keyword, keep groups with `COUNT(*) >= 2` (`HAVING`), order by frequency
descending then mean sentiment descending, return at most `p_limit` rows
(`LIMIT`, default 20). -/
def analyze_keyword_frequency (arts : List Article) (c : Nat) (sD eD : Int)
    (limit : Nat := 20) : List KeywordRow :=
  let pairs := keywordPairs arts c sD eD
  let kws := (pairs.map (fun p => p.1)).dedup
  let grouped := kws.map (keywordRowFor pairs)
  let kept := grouped.filter (fun r => 2 ≤ r.frequency)
  (List.insertionSort kwOrder kept).take limit

/-! ## Company rolling summary view -/

/-- a row of the `company_sentiment_summary` view. -/
structure SummaryRow where
  company_id : Nat
  company_name : String
  stock_code : Option String
  total_articles : Nat
  articles_last_7days : Nat
  articles_last_30days : Nat
  avg_sentiment_all_time : Option ℚ
  avg_sentiment_7days : Option ℚ
  avg_sentiment_30days : Option ℚ
  latest_article_date : Option Int
deriving DecidableEq

/-- `ROUND(AVG(..), 2)` over a list of mapped values; SQL `AVG` of no rows
is `NULL`. -/
def avgOpt (vals : List Int) : Option ℚ :=
  if vals.isEmpty then none else some (round2 ((vals.sum : ℚ) / (vals.length : ℚ)))

/-- one company's row of the `company_sentiment_summary` view, computed
over the `LEFT JOIN` group.  A company with no articles still has one
joined row, with every `na.*` column `NULL`: `COUNT(na.id)`, the
`FILTER`ed aggregates and `MAX(na.published_date)` all ignore it, but the
unfiltered all-time `AVG` does not — `sentiment_to_numeric` is not
`STRICT`, so that dangling row contributes `sentiment_to_numeric(NULL) = 0`
and the all-time mean of a zero-article company is `0.00`, never `NULL`.
`joined` below is the list of `na.sentiment_score` values of the group's
joined rows.  `today` stands for `CURRENT_DATE`. -/
def summaryRowFor (arts : List Article) (today : Int) (c : Company) : SummaryRow :=
  let as := arts.filter (fun a => a.company_id == c.id)
  let joined := if as.isEmpty then [(none : Option String)]
                else as.map (fun a => a.sentiment_score)
  let last7 := as.filter (fun a => decide (today - 7 ≤ a.published_date))
  let last30 := as.filter (fun a => decide (today - 30 ≤ a.published_date))
  { company_id := c.id
    company_name := c.name
    stock_code := c.stock_code
    total_articles := as.length
    articles_last_7days := last7.length
    articles_last_30days := last30.length
    avg_sentiment_all_time :=
      some (round2 (((joined.map sentiment_to_numeric).sum : ℚ) / (joined.length : ℚ)))
    avg_sentiment_7days := avgOpt (last7.map (fun a => sentiment_to_numeric a.sentiment_score))
    avg_sentiment_30days := avgOpt (last30.map (fun a => sentiment_to_numeric a.sentiment_score))
    latest_article_date := (as.map (fun a => a.published_date)).max? }

/-- the `company_sentiment_summary` view: active companies `LEFT JOIN`
articles, grouped per company, with all-time / trailing-7-day /
trailing-30-day counts and rounded mean mapped sentiments and the most
recent published date.  Articles with a `NULL` label are not filtered out
anywhere: `sentiment_to_numeric` maps them to 0. -/
def company_sentiment_summary (companies : List Company) (arts : List Article)
    (today : Int) : List SummaryRow :=
  (companies.filter (fun c => c.is_active)).map (summaryRowFor arts today)

/-! ## Partition manager -/

/-- a calendar date as PostgreSQL's `DATE(year || '-' || month || '-01')`
and interval arithmetic see it. -/
structure PgDate where
  year : Nat
  month : Nat
  day : Nat
deriving DecidableEq

/-- a child partition in the catalog: its identifier, parent table and
`FOR VALUES FROM (..) TO (..)` bounds. -/
structure Partition where
  name : String
  parent : String
  from_date : PgDate
  to_date : PgDate
deriving DecidableEq

/-- `LPAD(s, 2, '0')`: pad on the left to two characters (or truncate to
two). -/
def lpad2 (s : String) : String :=
  if 2 ≤ s.length then s.take 2
  else String.mk (List.replicate (2 - s.length) '0') ++ s

/-- the partition identifier
`table_name || '_y' || year || 'm' || LPAD(month::TEXT, 2, '0')`. -/
def partitionName (table : String) (year month : Nat) : String :=
  table ++ "_y" ++ toString year ++ "m" ++ lpad2 (toString month)

/-- the first day of the month, `DATE(year || '-' || month || '-01')`. -/
def monthStart (year month : Nat) : PgDate := ⟨year, month, 1⟩

/-- `start_date + INTERVAL '1 month'` applied to the first of a month. -/
def nextMonthStart (year month : Nat) : PgDate :=
  if month = 12 then ⟨year + 1, 1, 1⟩ else ⟨year, month + 1, 1⟩

/-- the `create_monthly_partition` function over a catalog of existing
partitions: `CREATE TABLE IF NOT EXISTS name PARTITION OF parent FOR VALUES
FROM (start) TO (end)` — a no-op when a relation of that name already
exists. -/
def create_monthly_partition (catalog : List Partition) (table : String)
    (year month : Nat) : List Partition :=
  let pname := partitionName table year month
  if catalog.any (fun p => p.name == pname) then catalog
  else catalog ++ [{ name := pname, parent := table,
                     from_date := monthStart year month,
                     to_date := nextMonthStart year month }]

/-! ## Helper lemmas -/

/-- signs of the mapped values partition any list of values. -/
lemma countP_sign_partition (vals : List Int) :
    vals.countP (fun v => decide (0 < v)) + vals.countP (fun v => decide (v < 0)) +
      vals.countP (fun v => decide (v = 0)) = vals.length := by
  induction vals with
  | nil => simp
  | cons a l ih =>
    simp only [List.countP_cons, List.length_cons]
    rcases lt_trichotomy a 0 with h | h | h
    · simp only [decide_eq_true_eq]
      rw [if_neg (by omega), if_pos (by omega), if_neg (by omega)]
      omega
    · simp only [decide_eq_true_eq]
      rw [if_neg (by omega), if_neg (by omega), if_pos (by omega)]
      omega
    · simp only [decide_eq_true_eq]
      rw [if_pos (by omega), if_neg (by omega), if_neg (by omega)]
      omega

/-- the three class counts of a recomputed bucket partition its total. -/
lemma computeBucket_partition (arts : List Article) (c : Nat) (st : String) (d : Int) :
    (computeBucket arts c st d).positive_count + (computeBucket arts c st d).negative_count +
      (computeBucket arts c st d).neutral_count = (computeBucket arts c st d).total_articles := by
  unfold computeBucket
  simp only
  rw [countP_sign_partition, List.length_map]

/-- membership after an upsert: an element is either an old element or the
upserted pair. -/
lemma mem_upsertBucket {store : BucketStore} {k : BucketKey} {v : TrendBucketRow}
    {e : BucketKey × TrendBucketRow} (he : e ∈ upsertBucket store k v) :
    e ∈ store ∨ e = (k, v) := by
  unfold upsertBucket at he
  split at he
  · rcases List.mem_map.mp he with ⟨e0, he0, hfe⟩
    by_cases hk : e0.1 == k
    · rw [if_pos hk] at hfe
      exact Or.inr hfe.symm
    · rw [if_neg hk] at hfe
      exact Or.inl (hfe ▸ he0)
  · rcases List.mem_append.mp he with h | h
    · exact Or.inl h
    · exact Or.inr (List.mem_singleton.mp h)

/-- a trigger firing that is not a no-op writes only freshly recomputed
rows. -/
lemma mem_fireTrigger {arts : List Article} {newRow : Article} {store : BucketStore}
    {e : BucketKey × TrendBucketRow} (he : e ∈ fireTrigger arts newRow store) :
    e ∈ store ∨ ∃ c st d, e = ((c, st, d), computeBucket arts c st d) := by
  unfold fireTrigger at he
  split at he
  next st h1 h2 =>
    split at he
    · exact Or.inl he
    · rcases mem_upsertBucket he with h | h
      · exact Or.inl h
      · exact Or.inr ⟨newRow.company_id, st, newRow.published_date, h⟩
  next => exact Or.inl he

/-- the trigger guard: a write leaving either classification field `NULL`
never touches the store. -/
lemma fireTrigger_noop {arts : List Article} {newRow : Article} (store : BucketStore)
    (h : newRow.sentiment_score = none ∨ newRow.stakeholder_type = none) :
    fireTrigger arts newRow store = store := by
  unfold fireTrigger
  cases hs : newRow.sentiment_score <;> cases ht : newRow.stakeholder_type <;> simp_all

/-- firing the trigger for a batch of rows that all fail the guard is a
no-op. -/
lemma foldl_fireTrigger_noop (arts rows : List Article) (store : BucketStore)
    (h : ∀ r ∈ rows, r.sentiment_score = none ∨ r.stakeholder_type = none) :
    rows.foldl (fun b row => fireTrigger arts row b) store = store := by
  induction rows generalizing store with
  | nil => rfl
  | cons r rest ih =>
    simp only [List.foldl_cons]
    rw [fireTrigger_noop store (h r (List.mem_cons_self r rest))]
    exact ih store (fun r' hr' => h r' (List.mem_cons_of_mem r hr'))

/-- find over the replacement map of an upsert whose key is present. -/
lemma find?_upsert_map (k : BucketKey) (v : TrendBucketRow) :
    ∀ store : BucketStore, store.any (fun e => e.1 == k) = true →
      (store.map (fun e => if e.1 == k then (k, v) else e)).find? (fun e => e.1 == k)
        = some (k, v)
  | [], h => by simp at h
  | e :: rest, h => by
    cases hbe : (e.1 == k) with
    | true =>
      rw [List.map_cons, if_pos hbe, List.find?_cons]
      simp
    | false =>
      have hne' : ¬((e.1 == k) = true) := by simp [hbe]
      rw [List.map_cons, if_neg hne', List.find?_cons, hbe]
      have hr : rest.any (fun e => e.1 == k) = true := by
        rw [List.any_cons, hbe, Bool.false_or] at h
        exact h
      exact find?_upsert_map k v rest hr

/-- find at another key is unchanged by the replacement map of an upsert. -/
lemma find?_upsert_map_ne (k k' : BucketKey) (v : TrendBucketRow) (hne : k' ≠ k) :
    ∀ store : BucketStore,
      (store.map (fun e => if e.1 == k then (k, v) else e)).find? (fun e => e.1 == k')
        = store.find? (fun e => e.1 == k')
  | [] => rfl
  | e :: rest => by
    have hkv : ((k, v).1 == k') = false := by
      simp only [beq_eq_false_iff_ne, ne_eq]
      exact fun hkk => hne hkk.symm
    cases hbe : (e.1 == k) with
    | true =>
      have h2 : (e.1 == k') = false := by
        have he : e.1 = k := beq_iff_eq.mp hbe
        rw [he]
        simpa using hkv
      rw [List.map_cons, if_pos hbe, List.find?_cons, List.find?_cons, hkv, h2]
      exact find?_upsert_map_ne k k' v hne rest
    | false =>
      have hne' : ¬((e.1 == k) = true) := by simp [hbe]
      rw [List.map_cons, if_neg hne', List.find?_cons, List.find?_cons]
      cases hpe : (e.1 == k') with
      | true => rfl
      | false => exact find?_upsert_map_ne k k' v hne rest

/-- looking up the upserted key returns the upserted value. -/
lemma lookupBucket_upsert_self (store : BucketStore) (k : BucketKey) (v : TrendBucketRow) :
    lookupBucket (upsertBucket store k v) k = some v := by
  unfold upsertBucket lookupBucket
  by_cases h : store.any (fun e => e.1 == k) = true
  · rw [if_pos h, find?_upsert_map k v store h]
    rfl
  · have hf : store.any (fun e => e.1 == k) = false := Bool.eq_false_iff.mpr h
    rw [if_neg h, List.find?_append, List.find?_eq_none.mpr (List.any_eq_false.mp hf)]
    rw [List.find?_cons, beq_self_eq_true k]
    rfl

/-- looking up a different key is unaffected by an upsert. -/
lemma lookupBucket_upsert_ne (store : BucketStore) (k k' : BucketKey) (v : TrendBucketRow)
    (hne : k' ≠ k) :
    lookupBucket (upsertBucket store k v) k' = lookupBucket store k' := by
  unfold upsertBucket lookupBucket
  by_cases h : store.any (fun e => e.1 == k) = true
  · rw [if_pos h, find?_upsert_map_ne k k' v hne store]
  · have h1 : ([(k, v)].find? (fun e => e.1 == k')) = none := by
      have hkv : ((k, v).1 == k') = false := by
        simp only [beq_eq_false_iff_ne, ne_eq]
        exact fun hkk => hne hkk.symm
      simp [List.find?_cons, hkv]
    rw [if_neg h, List.find?_append, h1]
    cases store.find? (fun e => e.1 == k') <;> rfl

/-- the written row always matches its own bucket key when the trigger guard
passes. -/
lemma matchesKey_self {newRow : Article} {st : String}
    (ht : newRow.stakeholder_type = some st) (hs : newRow.sentiment_score.isSome) :
    matchesKey newRow.company_id st newRow.published_date newRow = true := by
  unfold matchesKey
  rw [ht, hs]
  simp

/-- when the guard passes and the written row is in the table, the trigger
replaces the bucket at the row's key with the full recompute, regardless of
the store's previous contents. -/
lemma fireTrigger_lookup_self {arts : List Article} {newRow : Article} {st : String}
    (store : BucketStore) (ht : newRow.stakeholder_type = some st)
    (hs : newRow.sentiment_score.isSome) (hmem : newRow ∈ arts) :
    lookupBucket (fireTrigger arts newRow store) (newRow.company_id, st, newRow.published_date)
      = some (computeBucket arts newRow.company_id st newRow.published_date) := by
  rcases Option.isSome_iff_exists.mp hs with ⟨v, hv⟩
  unfold fireTrigger
  simp only [hv, ht]
  have hne : (keyFilter arts newRow.company_id st newRow.published_date).isEmpty = false := by
    rw [List.isEmpty_eq_false]
    intro hnil
    have : newRow ∈ keyFilter arts newRow.company_id st newRow.published_date :=
      List.mem_filter.mpr ⟨hmem, matchesKey_self ht hs⟩
    rw [hnil] at this
    exact List.not_mem_nil newRow this
  rw [if_neg (by rw [hne]; exact Bool.false_ne_true)]
  exact lookupBucket_upsert_self store _ _

/-- the SQL mapper agrees with the plain-label value table, with `NULL`
falling through to 0. -/
lemma sentiment_to_numeric_eq (o : Option String) :
    sentiment_to_numeric o
      = (match o with | none => 0 | some s => sentiment_label_value s) := by
  cases o with
  | none => rfl
  | some s =>
    simp only [sentiment_to_numeric, sentiment_label_value, Option.some.injEq]

/-- chaining the company filter with a trailing-window filter equals one
conjunctive filter. -/
lemma filter_company_window (arts : List Article) (cid : Nat) (cut : Int) :
    (arts.filter (fun a => a.company_id == cid)).filter
        (fun a => decide (cut ≤ a.published_date))
      = arts.filter (fun a => a.company_id == cid && decide (cut ≤ a.published_date)) := by
  rw [List.filter_filter]
  exact List.filter_congr (fun a _ => Bool.and_comm _ _)

/-- the all-time average of a company with at least one article ranges over
exactly its articles (no dangling LEFT JOIN row). -/
lemma summaryRowFor_avg_all_of_ne {arts : List Article} {today : Int} {c : Company}
    (h : arts.filter (fun a => a.company_id == c.id) ≠ []) :
    (summaryRowFor arts today c).avg_sentiment_all_time
      = some (round2 ((((arts.filter (fun a => a.company_id == c.id)).map
          (fun a => sentiment_to_numeric a.sentiment_score)).sum : ℚ) /
        (((arts.filter (fun a => a.company_id == c.id)).length : Nat) : ℚ))) := by
  show some (round2 ((((if (arts.filter (fun a => a.company_id == c.id)).isEmpty
        then [(none : Option String)]
        else (arts.filter (fun a => a.company_id == c.id)).map
          (fun a => a.sentiment_score)).map sentiment_to_numeric).sum : ℚ) /
      (((if (arts.filter (fun a => a.company_id == c.id)).isEmpty
        then [(none : Option String)]
        else (arts.filter (fun a => a.company_id == c.id)).map
          (fun a => a.sentiment_score)).length : Nat) : ℚ))) = _
  rw [if_neg (by rw [List.isEmpty_eq_false.mpr h]; exact Bool.false_ne_true)]
  rw [List.map_map, List.length_map]
  rfl

/-- a zero-article company's all-time average is 0.00: the one dangling
LEFT JOIN row contributes `sentiment_to_numeric(NULL) = 0` to the
unfiltered `AVG`. -/
lemma summaryRowFor_avg_all_of_empty {arts : List Article} {today : Int} {c : Company}
    (h : arts.filter (fun a => a.company_id == c.id) = []) :
    (summaryRowFor arts today c).avg_sentiment_all_time = some 0 := by
  show some (round2 ((((if (arts.filter (fun a => a.company_id == c.id)).isEmpty
        then [(none : Option String)]
        else (arts.filter (fun a => a.company_id == c.id)).map
          (fun a => a.sentiment_score)).map sentiment_to_numeric).sum : ℚ) /
      (((if (arts.filter (fun a => a.company_id == c.id)).isEmpty
        then [(none : Option String)]
        else (arts.filter (fun a => a.company_id == c.id)).map
          (fun a => a.sentiment_score)).length : Nat) : ℚ))) = some 0
  rw [h]
  with_unfolding_all decide

/-- membership in the inclusive day range. -/
lemma mem_dateRange {sD eD d : Int} : d ∈ dateRange sD eD ↔ sD ≤ d ∧ d ≤ eD := by
  simp only [dateRange, List.mem_map, List.mem_range]
  constructor
  · rintro ⟨i, hi, rfl⟩
    omega
  · intro h
    exact ⟨(d - sD).toNat, by omega, by omega⟩

/-- the day range is strictly ascending. -/
lemma dateRange_pairwise (sD eD : Int) :
    List.Pairwise (fun d1 d2 => d1 < d2) (dateRange sD eD) := by
  unfold dateRange
  rw [List.pairwise_map]
  refine List.Pairwise.imp ?_ (List.pairwise_lt_range _)
  intro a b h
  have h' : a < b := h
  omega

/-- a day with no qualifying article produces no group. -/
lemma trendRowFor_none {arts : List Article} {c : Nat} {stF : Option String} {d : Int}
    (h : arts.filter (trendFilter c stF d) = []) :
    trendRowFor arts c stF d = none := by
  unfold trendRowFor
  rw [h]
  rfl

/-- a day with at least one qualifying article produces exactly the grouped
row. -/
lemma trendRowFor_of_ne {arts : List Article} {c : Nat} {stF : Option String} {d : Int}
    (h : arts.filter (trendFilter c stF d) ≠ []) :
    trendRowFor arts c stF d = some
      { date := d
        avg_sentiment := round2
          ((((arts.filter (trendFilter c stF d)).map
              (fun a => sentiment_to_numeric a.sentiment_score)).sum : Int) /
            (((arts.filter (trendFilter c stF d)).length : Nat) : ℚ))
        article_count := (arts.filter (trendFilter c stF d)).length
        positive_ratio := round2
          ((((((arts.filter (trendFilter c stF d)).map
              (fun a => sentiment_to_numeric a.sentiment_score)).countP
              (fun v => decide (0 < v)) : Nat) : ℚ) /
            (((arts.filter (trendFilter c stF d)).length : Nat) : ℚ)) * 100) } := by
  unfold trendRowFor
  rw [if_neg (by rw [List.isEmpty_eq_false.mpr h]; exact Bool.false_ne_true)]

/-- inversion of one day's group. -/
lemma trendRowFor_eq_some {arts : List Article} {c : Nat} {stF : Option String} {d : Int}
    {r : TrendRow} (h : trendRowFor arts c stF d = some r) :
    arts.filter (trendFilter c stF d) ≠ [] ∧
    r = { date := d
          avg_sentiment := round2
            ((((arts.filter (trendFilter c stF d)).map
                (fun a => sentiment_to_numeric a.sentiment_score)).sum : Int) /
              (((arts.filter (trendFilter c stF d)).length : Nat) : ℚ))
          article_count := (arts.filter (trendFilter c stF d)).length
          positive_ratio := round2
            ((((((arts.filter (trendFilter c stF d)).map
                (fun a => sentiment_to_numeric a.sentiment_score)).countP
                (fun v => decide (0 < v)) : Nat) : ℚ) /
              (((arts.filter (trendFilter c stF d)).length : Nat) : ℚ)) * 100) } := by
  by_cases hf : arts.filter (trendFilter c stF d) = []
  · rw [trendRowFor_none hf] at h
    exact absurd h (by simp)
  · rw [trendRowFor_of_ne hf] at h
    exact ⟨hf, (Option.some.inj h).symm⟩

/-- a qualifying article always carries a non-null label. -/
lemma trendFilter_isSome {c : Nat} {stF : Option String} {d : Int} {a : Article}
    (h : trendFilter c stF d a = true) : a.sentiment_score.isSome = true := by
  simp only [trendFilter, Bool.and_eq_true] at h
  tauto

/-- the keyword column of a grouped row. -/
lemma keywordRowFor_keyword (pairs : List (String × Int)) (k : String) :
    (keywordRowFor pairs k).keyword = k := rfl

/-- a grouped row's frequency is the keyword's occurrence count in the
expansion. -/
lemma keywordRowFor_frequency (pairs : List (String × Int)) (k : String) :
    (keywordRowFor pairs k).frequency = pairs.countP (fun p => p.1 == k) := by
  unfold keywordRowFor
  simp only [List.length_map]
  rw [List.countP_eq_length_filter]

/-- every output row of the analyzer is the grouped row of some keyword of
the expansion, kept by the `HAVING` clause. -/
lemma analyze_mem {arts : List Article} {c : Nat} {sD eD : Int} {limit : Nat}
    {r : KeywordRow} (hr : r ∈ analyze_keyword_frequency arts c sD eD limit) :
    ∃ k ∈ ((keywordPairs arts c sD eD).map (fun p => p.1)).dedup,
      r = keywordRowFor (keywordPairs arts c sD eD) k ∧ 2 ≤ r.frequency := by
  simp only [analyze_keyword_frequency] at hr
  have h1 := List.Sublist.mem hr (List.take_sublist _ _)
  have h2 := (List.perm_insertionSort kwOrder _).mem_iff.mp h1
  rcases List.mem_filter.mp h2 with ⟨h3, h4⟩
  rcases List.mem_map.mp h3 with ⟨k, hk, hrk⟩
  exact ⟨k, hk, hrk.symm, of_decide_eq_true h4⟩

/-! ## Trigger-replay invariant (for cross-path consistency) -/

/-- one replay step. -/
lemma replayInserts_append (l : List Article) (a : Article) :
    replayInserts (l ++ [a]) = applyInsert (replayInserts l) a := by
  unfold replayInserts
  rw [List.foldl_append]
  rfl

/-- the replayed article table is exactly the insert history. -/
lemma replayInserts_articles (l : List Article) : (replayInserts l).articles = l := by
  induction l using List.reverseRecOn with
  | nil => rfl
  | append_singleton l a ih =>
    rw [replayInserts_append]
    show (replayInserts l).articles ++ [a] = l ++ [a]
    rw [ih]

/-- components of a satisfied no-filter day predicate. -/
lemma qualifies_components {c : Nat} {d : Int} {a : Article}
    (h : qualifies c d a = true) :
    a.company_id = c ∧ a.published_date = d ∧ a.sentiment_score.isSome = true := by
  simp only [qualifies, Bool.and_eq_true, beq_iff_eq] at h
  tauto

/-- building a satisfied no-filter day predicate. -/
lemma qualifies_of_components {c : Nat} {d : Int} {a : Article}
    (h1 : a.company_id = c) (h2 : a.published_date = d)
    (h3 : a.sentiment_score.isSome = true) : qualifies c d a = true := by
  simp only [qualifies, Bool.and_eq_true, beq_iff_eq]
  tauto

/-- components of a satisfied bucket-key match. -/
lemma matchesKey_components {c : Nat} {st : String} {d : Int} {a : Article}
    (h : matchesKey c st d a = true) :
    a.company_id = c ∧ a.stakeholder_type = some st ∧ a.published_date = d ∧
      a.sentiment_score.isSome = true := by
  simp only [matchesKey, Bool.and_eq_true, beq_iff_eq] at h
  tauto

/-- building a satisfied bucket-key match. -/
lemma matchesKey_of_components {c : Nat} {st : String} {d : Int} {a : Article}
    (h1 : a.company_id = c) (h2 : a.stakeholder_type = some st)
    (h3 : a.published_date = d) (h4 : a.sentiment_score.isSome = true) :
    matchesKey c st d a = true := by
  simp only [matchesKey, Bool.and_eq_true, beq_iff_eq]
  tauto

/-- an article with a null classification field matches no bucket key. -/
lemma matchesKey_of_unclassified {a : Article}
    (h : a.sentiment_score = none ∨ a.stakeholder_type = none)
    (c : Nat) (st : String) (d : Int) : matchesKey c st d a = false := by
  cases hmk : matchesKey c st d a with
  | false => rfl
  | true =>
    rcases matchesKey_components hmk with ⟨-, h2, -, h4⟩
    rcases h with h | h
    · rw [h] at h4
      exact absurd h4 (by simp)
    · rw [h] at h2
      exact absurd h2 (by simp)

/-- appending an article extends a key's filtered set only at keys the
article matches. -/
lemma keyFilter_append (l : List Article) (a : Article) (c : Nat) (st : String) (d : Int) :
    keyFilter (l ++ [a]) c st d
      = keyFilter l c st d ++ (if matchesKey c st d a then [a] else []) := by
  unfold keyFilter
  rw [List.filter_append]
  congr 1
  rw [List.filter_singleton]
  cases matchesKey c st d a <;> rfl

/-- the recomputed bucket depends only on the key's filtered set. -/
lemma computeBucket_congr {l l' : List Article} {c : Nat} {st : String} {d : Int}
    (h : keyFilter l c st d = keyFilter l' c st d) :
    computeBucket l c st d = computeBucket l' c st d := by
  unfold computeBucket
  rw [h]

/-- keys after an upsert: unchanged when the key was present, appended
otherwise. -/
lemma upsertBucket_keys (store : BucketStore) (k : BucketKey) (v : TrendBucketRow) :
    (upsertBucket store k v).map (fun e => e.1)
      = if store.any (fun e => e.1 == k) then store.map (fun e => e.1)
        else store.map (fun e => e.1) ++ [k] := by
  unfold upsertBucket
  by_cases h : store.any (fun e => e.1 == k) = true
  · rw [if_pos h, if_pos h, List.map_map]
    refine List.map_congr_left fun e he => ?_
    show (if e.1 == k then (k, v) else e).1 = e.1
    by_cases hek : (e.1 == k) = true
    · rw [if_pos hek]
      exact (beq_iff_eq.mp hek).symm
    · rw [if_neg hek]
  · rw [if_neg h, if_neg h, List.map_append]
    rfl

/-- a member of an upsert result is the upserted pair or an untouched old
entry at a different key. -/
lemma mem_upsertBucket_mixed {store : BucketStore} {k : BucketKey} {v : TrendBucketRow}
    {e : BucketKey × TrendBucketRow} (he : e ∈ upsertBucket store k v) :
    e = (k, v) ∨ (e ∈ store ∧ e.1 ≠ k) := by
  unfold upsertBucket at he
  split at he
  next h =>
    rcases List.mem_map.mp he with ⟨e0, he0, hfe⟩
    by_cases hek : (e0.1 == k) = true
    · rw [if_pos hek] at hfe
      exact Or.inl hfe.symm
    · rw [if_neg hek] at hfe
      refine Or.inr ⟨hfe ▸ he0, ?_⟩
      rw [← hfe]
      exact fun hc => hek (beq_iff_eq.mpr hc)
  next h =>
    rcases List.mem_append.mp he with h1 | h1
    · refine Or.inr ⟨h1, ?_⟩
      have hall := List.any_eq_false.mp (Bool.eq_false_iff.mpr h) e h1
      exact fun hc => hall (beq_iff_eq.mpr hc)
    · exact Or.inl (List.mem_singleton.mp h1)

/-- the replay invariant of the trigger-maintained store: keys are unique;
every stored row is the full recompute over the final article table for a
key whose filtered set is non-empty; and every key with a non-empty filtered
set is stored. -/
lemma replay_buckets_invariant (l : List Article) :
    (((replayInserts l).buckets.map (fun e => e.1)).Nodup) ∧
    (∀ e ∈ (replayInserts l).buckets,
      keyFilter l e.1.1 e.1.2.1 e.1.2.2 ≠ [] ∧
      e.2 = computeBucket l e.1.1 e.1.2.1 e.1.2.2) ∧
    (∀ c st d, keyFilter l c st d ≠ [] →
      (c, st, d) ∈ (replayInserts l).buckets.map (fun e => e.1)) := by
  induction l using List.reverseRecOn with
  | nil =>
    exact ⟨List.nodup_nil, fun e he => absurd he (List.not_mem_nil e),
      fun c st d h => absurd rfl h⟩
  | append_singleton l a ih =>
    rcases ih with ⟨ihn, ihv, ihc⟩
    rw [replayInserts_append]
    have harts : (replayInserts l).articles = l := replayInserts_articles l
    by_cases hcl : a.sentiment_score = none ∨ a.stakeholder_type = none
    · have hb : (applyInsert (replayInserts l) a).buckets = (replayInserts l).buckets :=
        fireTrigger_noop _ hcl
      have hkf : ∀ c st d, keyFilter (l ++ [a]) c st d = keyFilter l c st d := by
        intro c st d
        rw [keyFilter_append l a c st d, matchesKey_of_unclassified hcl c st d]
        simp
      rw [hb]
      refine ⟨ihn, fun e he => ?_, fun c st d h => ?_⟩
      · rcases ihv e he with ⟨h1, h2⟩
        rw [hkf, computeBucket_congr (hkf e.1.1 e.1.2.1 e.1.2.2)]
        exact ⟨h1, h2⟩
      · rw [hkf] at h
        exact ihc c st d h
    · push_neg at hcl
      obtain ⟨hs0, ht0⟩ := hcl
      rcases Option.ne_none_iff_exists'.mp ht0 with ⟨st0, hst⟩
      have hsome : a.sentiment_score.isSome = true := Option.isSome_iff_ne_none.mpr hs0
      have hkf_ne : ∀ c st d, (c, st, d) ≠ ((a.company_id, st0, a.published_date) : BucketKey) →
          keyFilter (l ++ [a]) c st d = keyFilter l c st d := by
        intro c st d hk
        rw [keyFilter_append]
        have hmf : matchesKey c st d a = false := by
          cases hmk : matchesKey c st d a with
          | false => rfl
          | true =>
            rcases matchesKey_components hmk with ⟨h1, h2, h3, -⟩
            rw [hst] at h2
            exact absurd (by rw [← h1, ← Option.some.inj h2, ← h3]) hk
        rw [hmf]
        simp
      have hkf_self : keyFilter (l ++ [a]) a.company_id st0 a.published_date ≠ [] := by
        rw [keyFilter_append]
        rw [matchesKey_of_components rfl hst rfl hsome]
        simp
      have hb : (applyInsert (replayInserts l) a).buckets
          = upsertBucket (replayInserts l).buckets (a.company_id, st0, a.published_date)
              (computeBucket (l ++ [a]) a.company_id st0 a.published_date) := by
        show fireTrigger ((replayInserts l).articles ++ [a]) a (replayInserts l).buckets = _
        rw [harts]
        rcases Option.isSome_iff_exists.mp hsome with ⟨v0, hv0⟩
        unfold fireTrigger
        simp only [hv0, hst]
        rw [if_neg (by rw [List.isEmpty_eq_false.mpr hkf_self]; exact Bool.false_ne_true)]
      rw [hb]
      refine ⟨?_, ?_, ?_⟩
      · rw [upsertBucket_keys]
        by_cases hany : (replayInserts l).buckets.any
            (fun e => e.1 == ((a.company_id, st0, a.published_date) : BucketKey)) = true
        · rw [if_pos hany]
          exact ihn
        · rw [if_neg hany]
          rw [List.nodup_append]
          refine ⟨ihn, List.nodup_singleton _, ?_⟩
          intro x hx hx1
          rcases List.mem_map.mp hx with ⟨e, he, hex⟩
          have hxk := List.mem_singleton.mp hx1
          have hall := List.any_eq_false.mp (Bool.eq_false_iff.mpr hany) e he
          exact hall (beq_iff_eq.mpr (by rw [hex, hxk]))
      · intro e he
        rcases mem_upsertBucket_mixed he with rfl | ⟨hmem, hne⟩
        · exact ⟨hkf_self, rfl⟩
        · rcases ihv e hmem with ⟨h1, h2⟩
          have hkeq := hkf_ne e.1.1 e.1.2.1 e.1.2.2 (by
            intro hc
            exact hne (by rw [← hc]))
          rw [hkeq, computeBucket_congr hkeq]
          exact ⟨h1, h2⟩
      · intro c st d h
        rw [upsertBucket_keys]
        by_cases hk : ((c, st, d) : BucketKey) = (a.company_id, st0, a.published_date)
        · by_cases hany : (replayInserts l).buckets.any
              (fun e => e.1 == ((a.company_id, st0, a.published_date) : BucketKey)) = true
          · rw [if_pos hany]
            rcases List.any_eq_true.mp hany with ⟨e, he, hbe⟩
            rw [hk]
            exact List.mem_map.mpr ⟨e, he, beq_iff_eq.mp hbe⟩
          · rw [if_neg hany, hk]
            exact List.mem_append.mpr (Or.inr (List.mem_singleton.mpr rfl))
        · rw [hkf_ne c st d hk] at h
          have hmem := ihc c st d h
          by_cases hany : (replayInserts l).buckets.any
              (fun e => e.1 == ((a.company_id, st0, a.published_date) : BucketKey)) = true
          · rw [if_pos hany]
            exact hmem
          · rw [if_neg hany]
            exact List.mem_append.mpr (Or.inl hmem)

/-- sums of pointwise sums split. -/
lemma sum_map_add (l : List String) (f g : String → Nat) :
    (l.map (fun x => f x + g x)).sum = (l.map f).sum + (l.map g).sum := by
  induction l with
  | nil => rfl
  | cons x xs ih =>
    simp only [List.map_cons, List.sum_cons, ih]
    omega

/-- over a duplicate-free list containing `st0`, an indicator of `= st0`
sums to one. -/
lemma sum_indicator_eq_one :
    ∀ (sts : List String), sts.Nodup → ∀ st0 ∈ sts, ∀ f : String → Bool,
      (∀ st, f st = true ↔ st = st0) →
      (sts.map (fun st => if f st then 1 else 0)).sum = 1
  | [], _, st0, hmem, _, _ => absurd hmem (List.not_mem_nil st0)
  | s :: rest, hnd, st0, hmem, f, hf => by
    rcases List.mem_cons.mp hmem with rfl | hmem'
    · rw [List.map_cons, List.sum_cons, if_pos ((hf st0).mpr rfl)]
      have hz : (rest.map (fun st => if f st then 1 else 0)).sum = 0 := by
        refine List.sum_eq_zero fun x hx => ?_
        rcases List.mem_map.mp hx with ⟨st, hstm, hxe⟩
        rw [← hxe]
        have hns : st ≠ st0 := fun hss => (List.nodup_cons.mp hnd).1 (hss ▸ hstm)
        rw [if_neg (fun htrue => hns ((hf st).mp htrue))]
      rw [hz]
    · rw [List.map_cons, List.sum_cons]
      have hns : s ≠ st0 := fun hss => (List.nodup_cons.mp hnd).1 (hss ▸ hmem')
      have hfs : ¬(f s = true) := fun htrue => hns ((hf s).mp htrue)
      rw [if_neg hfs,
        sum_indicator_eq_one rest (List.nodup_cons.mp hnd).2 st0 hmem' f hf]

/-- partitioning the no-filter day count by stakeholder: over a
duplicate-free stakeholder list covering every qualifying article, the
per-stakeholder key-match counts sum to the total qualifying count. -/
lemma sum_count_by_stakeholder (c : Nat) (d : Int) :
    ∀ (arts : List Article) (sts : List String), sts.Nodup →
      (∀ a ∈ arts, qualifies c d a = true →
        ∃ st0, a.stakeholder_type = some st0 ∧ st0 ∈ sts) →
      (sts.map (fun st => arts.countP (matchesKey c st d))).sum
        = arts.countP (qualifies c d)
  | [], sts, hnd, hcov => by
    simp [List.countP_nil]
  | a :: arts, sts, hnd, hcov => by
    have ihr := sum_count_by_stakeholder c d arts sts hnd
      (fun a' ha' hq => hcov a' (List.mem_cons_of_mem a ha') hq)
    simp only [List.countP_cons]
    rw [sum_map_add, ihr]
    cases hq : qualifies c d a with
    | true =>
      rcases hcov a (List.mem_cons_self a arts) hq with ⟨st0, hst0, hmem0⟩
      rcases qualifies_components hq with ⟨hc1, hd1, hs1⟩
      have hone := sum_indicator_eq_one sts hnd st0 hmem0
        (fun st => matchesKey c st d a) (fun st => by
          constructor
          · intro hmk
            rcases matchesKey_components hmk with ⟨-, h2, -, -⟩
            rw [hst0] at h2
            exact (Option.some.inj h2).symm
          · intro hst
            subst hst
            exact matchesKey_of_components hc1 hst0 hd1 hs1)
      rw [hone, if_pos rfl]
    | false =>
      have hz : (sts.map (fun st => if matchesKey c st d a then 1 else 0)).sum = 0 := by
        refine List.sum_eq_zero fun x hx => ?_
        rcases List.mem_map.mp hx with ⟨st, hstm, hxe⟩
        rw [← hxe]
        have hmf : matchesKey c st d a = false := by
          cases hmk : matchesKey c st d a with
          | false => rfl
          | true =>
            rcases matchesKey_components hmk with ⟨h1, -, h3, h4⟩
            rw [qualifies_of_components h1 h3 h4] at hq
            exact absurd hq (by simp)
        rw [if_neg (by rw [hmf]; exact Bool.false_ne_true)]
      rw [hz, if_neg Bool.false_ne_true]

/-- the from-scratch daily totals over the trigger-maintained store equal
the no-filter qualifying article count, provided every labeled article also
carries a stakeholder. -/
lemma bucketTotalsFor_eq_countP (l : List Article) (c : Nat) (d : Int)
    (hcov : ∀ a ∈ l, qualifies c d a = true → a.stakeholder_type.isSome = true) :
    bucketTotalsFor (replayInserts l).buckets c d = l.countP (qualifies c d) := by
  rcases replay_buckets_invariant l with ⟨hnd, hval, hcomp⟩
  unfold bucketTotalsFor
  set entries := (replayInserts l).buckets.filter
    (fun e => e.1.1 == c && e.1.2.2 == d) with hE
  have hkeys : ∀ e ∈ entries, e.1.1 = c ∧ e.1.2.2 = d := by
    intro e he
    rcases List.mem_filter.mp he with ⟨-, hcond⟩
    simp only [Bool.and_eq_true] at hcond
    exact ⟨beq_iff_eq.mp hcond.1, beq_iff_eq.mp hcond.2⟩
  have hEsub : entries.Sublist (replayInserts l).buckets := by
    rw [hE]
    exact List.filter_sublist _
  have hmap1 : entries.map (fun e => e.2.total_articles)
      = entries.map (fun e => l.countP (matchesKey c e.1.2.1 d)) := by
    refine List.map_congr_left fun e he => ?_
    rw [(hval e (List.Sublist.mem he hEsub)).2]
    show (keyFilter l e.1.1 e.1.2.1 e.1.2.2).length = l.countP (matchesKey c e.1.2.1 d)
    rcases hkeys e he with ⟨h1, h2⟩
    rw [h1, h2]
    exact (List.countP_eq_length_filter _ _).symm
  have hmap2 : entries.map (fun e => l.countP (matchesKey c e.1.2.1 d))
      = (entries.map (fun e => e.1.2.1)).map (fun st => l.countP (matchesKey c st d)) := by
    rw [List.map_map]
    rfl
  have hndsts : (entries.map (fun e => e.1.2.1)).Nodup := by
    have h1 : (entries.map (fun e => e.1)).Nodup :=
      List.Nodup.sublist (List.Sublist.map _ hEsub) hnd
    have h2 : entries.map (fun e => e.1)
        = (entries.map (fun e => e.1.2.1)).map (fun st => ((c, st, d) : BucketKey)) := by
      rw [List.map_map]
      refine List.map_congr_left fun e he => ?_
      rcases hkeys e he with ⟨hc1, hd1⟩
      show e.1 = (c, e.1.2.1, d)
      rw [← hc1, ← hd1]
    rw [h2] at h1
    exact List.Nodup.of_map _ h1
  have hcover : ∀ a ∈ l, qualifies c d a = true →
      ∃ st0, a.stakeholder_type = some st0 ∧ st0 ∈ entries.map (fun e => e.1.2.1) := by
    intro a ha hq
    rcases Option.isSome_iff_exists.mp (hcov a ha hq) with ⟨st0, hst0⟩
    refine ⟨st0, hst0, ?_⟩
    rcases qualifies_components hq with ⟨hc1, hd1, hs1⟩
    have hmk : matchesKey c st0 d a = true := matchesKey_of_components hc1 hst0 hd1 hs1
    have hne : keyFilter l c st0 d ≠ [] := by
      intro hnil
      have hma : a ∈ keyFilter l c st0 d := List.mem_filter.mpr ⟨ha, hmk⟩
      rw [hnil] at hma
      exact List.not_mem_nil a hma
    rcases List.mem_map.mp (hcomp c st0 d hne) with ⟨e, he, hek⟩
    have heE : e ∈ entries := by
      rw [hE]
      refine List.mem_filter.mpr ⟨he, ?_⟩
      rw [hek]
      simp
    refine List.mem_map.mpr ⟨e, heE, ?_⟩
    rw [hek]
  rw [hmap1, hmap2, sum_count_by_stakeholder c d l _ hndsts hcover]

/-! ## Claim theorems -/

/-- C1: every TrendBucket row produced or replaced by the trend maintenance
trigger (`update_sentiment_trends`) satisfies
`positive_count + negative_count + neutral_count = total_articles`: the three
per-class counts partition the non-null-labeled articles of the key by the
sign of the mapped sentiment value. -/
theorem claim_C1 (arts : List Article) (newRow : Article) (store : BucketStore)
    (e : BucketKey × TrendBucketRow) (he : e ∈ fireTrigger arts newRow store) :
    e ∈ store ∨
      e.2.positive_count + e.2.negative_count + e.2.neutral_count = e.2.total_articles := by
  rcases mem_fireTrigger he with h | ⟨c, st, d, rfl⟩
  · exact Or.inl h
  · exact Or.inr (computeBucket_partition arts c st d)

/-- witness for C1 at a concrete insert: the single bucket row written for
scenario A satisfies the partition invariant. -/
theorem claim_C1_witness :
    ((((1 : Nat), "customer", (0 : Int)), (⟨1, 1, 0, 0, 1⟩ : TrendBucketRow))
        ∈ ([] : BucketStore)) ∨
      ((⟨1, 1, 0, 0, 1⟩ : TrendBucketRow).positive_count
        + (⟨1, 1, 0, 0, 1⟩ : TrendBucketRow).negative_count
        + (⟨1, 1, 0, 0, 1⟩ : TrendBucketRow).neutral_count
        = (⟨1, 1, 0, 0, 1⟩ : TrendBucketRow).total_articles) :=
  claim_C1 [⟨1, 1, 0, some "positive", some "customer", none⟩]
    ⟨1, 1, 0, some "positive", some "customer", none⟩ []
    (((1 : Nat), "customer", (0 : Int)), (⟨1, 1, 0, 0, 1⟩ : TrendBucketRow))
    (by with_unfolding_all decide)

/-- C4: an article write (insert, or classification update) that leaves the
sentiment label or the stakeholder classification `NULL` creates and alters
no TrendBucket row: the whole aggregate store is unchanged. -/
theorem claim_C4 (s : DBState) :
    (∀ a : Article, a.sentiment_score = none ∨ a.stakeholder_type = none →
      (applyInsert s a).buckets = s.buckets) ∧
    (∀ (id : Nat) (sent st : Option String), sent = none ∨ st = none →
      (applyUpdate s id sent st).buckets = s.buckets) := by
  constructor
  · intro a ha
    unfold applyInsert
    exact fireTrigger_noop s.buckets ha
  · intro id sent st h
    unfold applyUpdate
    refine foldl_fireTrigger_noop _ _ s.buckets ?_
    intro r hr
    rcases List.mem_filter.mp hr with ⟨hrm, hrid⟩
    rcases List.mem_map.mp hrm with ⟨a0, _, hfa⟩
    by_cases h0 : a0.id == id
    · rw [if_pos h0] at hfa
      rcases h with h | h
      · exact Or.inl (by rw [← hfa]; exact h)
      · exact Or.inr (by rw [← hfa]; exact h)
    · rw [if_neg h0] at hfa
      rw [← hfa] at hrid
      exact absurd hrid h0

/-- C2: after the trigger fires for a written article with non-null label
and non-null stakeholder, the bucket keyed by (company, stakeholder, publish
date) holds exactly the full recompute over the articles sharing that triple
with non-null label — total count, per-class counts by the sign of the
mapped value, and the arithmetic mean of mapped values — replacing the
previous row wholesale whatever the store previously held; in particular a
bucket of one `positive` and one `very_negative` article is
`{total := 2, positive := 1, negative := 1, neutral := 0, mean := -0.5}`. -/
theorem claim_C2 :
    (∀ (arts : List Article) (store : BucketStore) (newRow : Article) (st : String),
      newRow.stakeholder_type = some st → newRow.sentiment_score.isSome = true →
      newRow ∈ arts →
      lookupBucket (fireTrigger arts newRow store)
          (newRow.company_id, st, newRow.published_date)
        = some
          { total_articles := (keyFilter arts newRow.company_id st newRow.published_date).length
            positive_count := ((keyFilter arts newRow.company_id st newRow.published_date).map
                (fun a => sentiment_to_numeric a.sentiment_score)).countP
                (fun v => decide (0 < v))
            negative_count := ((keyFilter arts newRow.company_id st newRow.published_date).map
                (fun a => sentiment_to_numeric a.sentiment_score)).countP
                (fun v => decide (v < 0))
            neutral_count := ((keyFilter arts newRow.company_id st newRow.published_date).map
                (fun a => sentiment_to_numeric a.sentiment_score)).countP
                (fun v => decide (v = 0))
            avg_sentiment_score :=
              ((((keyFilter arts newRow.company_id st newRow.published_date).map
                  (fun a => sentiment_to_numeric a.sentiment_score)).sum : Int) : ℚ) /
                (((keyFilter arts newRow.company_id st newRow.published_date).length : Nat) : ℚ) }) ∧
    lookupBucket (replayInserts
        [⟨1, 1, 0, some "positive", some "customer", none⟩,
         ⟨2, 1, 0, some "very_negative", some "customer", none⟩]).buckets
        (1, "customer", 0)
      = some ⟨2, 1, 1, 0, -(1 : ℚ)/2⟩ := by
  constructor
  · intro arts store newRow st ht hs hmem
    rw [fireTrigger_lookup_self store ht hs hmem]
    rfl
  · with_unfolding_all decide

/-- witness for C2: the trigger firing on a one-article table writes the
bucket described by the general statement. -/
theorem claim_C2_witness :
    (lookupBucket
        (fireTrigger [⟨1, 1, 0, some "positive", some "customer", none⟩]
          ⟨1, 1, 0, some "positive", some "customer", none⟩ [])
        ((1 : Nat), "customer", (0 : Int))).isSome = true := by
  rw [claim_C2.1 [⟨1, 1, 0, some "positive", some "customer", none⟩] []
      ⟨1, 1, 0, some "positive", some "customer", none⟩ "customer" rfl rfl
      (List.mem_singleton.mpr rfl)]
  rfl

/-- witness for C4 at scenario C: inserting an article with `NULL`
stakeholder and label `negative` leaves the (empty) aggregate store
untouched. -/
theorem claim_C4_witness :
    (applyInsert emptyDB ⟨3, 1, 0, some "negative", none, none⟩).buckets = emptyDB.buckets :=
  (claim_C4 emptyDB).1 ⟨3, 1, 0, some "negative", none, none⟩ (Or.inr rfl)

/-- C8: the partition manager is idempotent: the partition name is the
deterministic string built from the arguments, the created partition covers
exactly the calendar month (from the 1st, exclusive of the 1st of the next
month), and a second call with identical arguments is a no-op that leaves
exactly one partition of that name. -/
theorem claim_C8 (catalog : List Partition) (table : String) (year month : Nat) :
    (create_monthly_partition (create_monthly_partition catalog table year month)
        table year month = create_monthly_partition catalog table year month) ∧
    (catalog.any (fun p => p.name == partitionName table year month) = false →
      create_monthly_partition catalog table year month
          = catalog ++ [{ name := partitionName table year month, parent := table,
                          from_date := ⟨year, month, 1⟩,
                          to_date := if month = 12 then ⟨year + 1, 1, 1⟩
                                     else ⟨year, month + 1, 1⟩ }] ∧
      (create_monthly_partition catalog table year month).countP
          (fun p => p.name == partitionName table year month) = 1) := by
  constructor
  · by_cases h : catalog.any (fun p => p.name == partitionName table year month)
    · have hc1 : create_monthly_partition catalog table year month = catalog := by
        unfold create_monthly_partition
        rw [if_pos h]
      rw [hc1]
      exact hc1
    · have hc : create_monthly_partition catalog table year month
          = catalog ++ [{ name := partitionName table year month, parent := table,
                          from_date := monthStart year month,
                          to_date := nextMonthStart year month }] := by
        unfold create_monthly_partition
        rw [if_neg h]
      rw [hc]
      unfold create_monthly_partition
      rw [if_pos (by simp)]
  · intro h
    have hne : ¬(catalog.any (fun p => p.name == partitionName table year month) = true) := by
      simp [h]
    have hc : create_monthly_partition catalog table year month
        = catalog ++ [{ name := partitionName table year month, parent := table,
                        from_date := monthStart year month,
                        to_date := nextMonthStart year month }] := by
      unfold create_monthly_partition
      rw [if_neg hne]
    constructor
    · rw [hc]
      unfold monthStart nextMonthStart
      rfl
    · rw [hc, List.countP_append]
      rw [List.countP_eq_zero.mpr (List.any_eq_false.mp h)]
      simp

/-- witness for C8: creating the 2024-03 partition of `news_articles` in an
empty catalog yields exactly one partition of the expected name. -/
theorem claim_C8_witness :
    (create_monthly_partition [] "news_articles" 2024 3).countP
      (fun p => p.name == partitionName "news_articles" 2024 3) = 1 :=
  ((claim_C8 [] "news_articles" 2024 3).2 (by decide)).2

/-- C5: the sentiment label mapper is a pure total function: the five labels
map to -2, -1, 0, 1, 2 in order, every other text input maps to 0 (so it
never raises an error), and the range is exactly contained in
`{-2, -1, 0, 1, 2}`. -/
theorem claim_C5 :
    sentiment_to_numeric (some "very_negative") = -2 ∧
    sentiment_to_numeric (some "negative") = -1 ∧
    sentiment_to_numeric (some "neutral") = 0 ∧
    sentiment_to_numeric (some "positive") = 1 ∧
    sentiment_to_numeric (some "very_positive") = 2 ∧
    (∀ s : String, s ≠ "very_negative" → s ≠ "negative" → s ≠ "neutral" →
      s ≠ "positive" → s ≠ "very_positive" → sentiment_to_numeric (some s) = 0) ∧
    (∀ o : Option String,
      sentiment_to_numeric o = -2 ∨ sentiment_to_numeric o = -1 ∨
      sentiment_to_numeric o = 0 ∨ sentiment_to_numeric o = 1 ∨
      sentiment_to_numeric o = 2) := by
  refine ⟨by decide, by decide, by decide, by decide, by decide, ?_, ?_⟩
  · intro s h1 h2 h3 h4 h5
    simp [sentiment_to_numeric, h1, h2, h3, h4, h5]
  · intro o
    unfold sentiment_to_numeric
    split
    · exact Or.inl rfl
    split
    · exact Or.inr (Or.inl rfl)
    split
    · exact Or.inr (Or.inr (Or.inl rfl))
    split
    · exact Or.inr (Or.inr (Or.inr (Or.inl rfl)))
    split
    · exact Or.inr (Or.inr (Or.inr (Or.inr rfl)))
    · exact Or.inr (Or.inr (Or.inl rfl))

/-- witness for C5: an unrecognized label maps to 0. -/
theorem claim_C5_witness : sentiment_to_numeric (some "mixed") = 0 :=
  claim_C5.2.2.2.2.2.1 "mixed" (by decide) (by decide) (by decide) (by decide) (by decide)

/-- C6: for every company, optional stakeholder filter and inclusive range,
`calculate_sentiment_trend` returns rows ordered by date ascending, one row
exactly for each in-range day with at least one qualifying article; each row
carries the 2-decimal-rounded mean mapped sentiment, the article count, and
the positive ratio `count(mapped>0)/count*100` rounded to 2 decimals; and
null-labeled articles are excluded: dropping them from the table leaves the
result unchanged. -/
theorem claim_C6 (arts : List Article) (c : Nat) (stF : Option String) (sD eD : Int) :
    List.Pairwise (fun r1 r2 => r1.date < r2.date)
      (calculate_sentiment_trend arts c stF sD eD) ∧
    (∀ r ∈ calculate_sentiment_trend arts c stF sD eD,
      sD ≤ r.date ∧ r.date ≤ eD ∧ 0 < r.article_count ∧
      r.article_count = (arts.filter (trendFilter c stF r.date)).length ∧
      r.avg_sentiment = round2
        ((((arts.filter (trendFilter c stF r.date)).map
            (fun a => sentiment_to_numeric a.sentiment_score)).sum : Int) /
          (((arts.filter (trendFilter c stF r.date)).length : Nat) : ℚ)) ∧
      r.positive_ratio = round2
        ((((((arts.filter (trendFilter c stF r.date)).map
            (fun a => sentiment_to_numeric a.sentiment_score)).countP
            (fun v => decide (0 < v)) : Nat) : ℚ) /
          (((arts.filter (trendFilter c stF r.date)).length : Nat) : ℚ)) * 100)) ∧
    (∀ d : Int, sD ≤ d → d ≤ eD → arts.filter (trendFilter c stF d) ≠ [] →
      ∃ r ∈ calculate_sentiment_trend arts c stF sD eD, r.date = d) ∧
    calculate_sentiment_trend (arts.filter (fun a => a.sentiment_score.isSome)) c stF sD eD
      = calculate_sentiment_trend arts c stF sD eD := by
  refine ⟨?_, ?_, ?_, ?_⟩
  · unfold calculate_sentiment_trend
    rw [List.pairwise_filterMap]
    refine List.Pairwise.imp ?_ (dateRange_pairwise sD eD)
    intro d1 d2 h r1 h1 r2 h2
    rcases trendRowFor_eq_some (Option.mem_def.mp h1) with ⟨-, hr1⟩
    rcases trendRowFor_eq_some (Option.mem_def.mp h2) with ⟨-, hr2⟩
    rw [hr1, hr2]
    exact h
  · intro r hr
    unfold calculate_sentiment_trend at hr
    rcases List.mem_filterMap.mp hr with ⟨d, hd, hgd⟩
    rcases trendRowFor_eq_some hgd with ⟨hne, hr'⟩
    rcases mem_dateRange.mp hd with ⟨h1, h2⟩
    subst hr'
    exact ⟨h1, h2, List.length_pos.mpr hne, rfl, rfl, rfl⟩
  · intro d h1 h2 hne
    refine ⟨_, List.mem_filterMap.mpr ⟨d, mem_dateRange.mpr ⟨h1, h2⟩,
      trendRowFor_of_ne hne⟩, rfl⟩
  · unfold calculate_sentiment_trend
    refine congrArg (fun f => List.filterMap f (dateRange sD eD)) (funext fun d => ?_)
    unfold trendRowFor
    rw [List.filter_filter]
    rw [List.filter_congr (fun a _ => ?_)]
    cases h : trendFilter c stF d a
    · rfl
    · rw [trendFilter_isSome h]
      rfl

/-- witness for C6: a one-article table yields a row for its publish day. -/
theorem claim_C6_witness :
    ∃ r ∈ calculate_sentiment_trend [⟨1, 1, 0, some "positive", none, none⟩] 1 none 0 0,
      r.date = 0 :=
  (claim_C6 [⟨1, 1, 0, some "positive", none, none⟩] 1 none 0 0).2.2.1 0
    (by decide) (by decide) (by decide)

/-- counterexample to C3 as stated, in both of its failure modes.
First, after inserting one article with a non-null label but `NULL`
stakeholder, the stakeholder-less trend query reports one article for the
day while the trigger-maintained aggregate store is empty — its daily total
across all buckets is 0, not 1.  Second, a classification update that moves
an article to a different stakeholder key strands the old key's bucket: the
trigger recomputes only the `NEW` row's key, so after re-classifying the
sole `customer` article as `investor` (every article fully classified, so
the stakeholder proviso holds), the stale `customer` bucket still exists
although the `customer`-filtered query returns no row at all, and the
stakeholder-less daily query total is 1 while the buckets sum to 2. -/
theorem claim_C3_counterexample :
    ((calculate_sentiment_trend
        (replayInserts [⟨3, 1, 0, some "negative", none, none⟩]).articles 1 none 0 0).map
      (fun r => r.article_count) = [1] ∧
     (replayInserts [⟨3, 1, 0, some "negative", none, none⟩]).buckets = [] ∧
     bucketTotalsFor (replayInserts [⟨3, 1, 0, some "negative", none, none⟩]).buckets 1 0
       = 0) ∧
    ((calculate_sentiment_trend
        (applyUpdate (replayInserts [⟨1, 1, 0, some "positive", some "customer", none⟩])
          1 (some "positive") (some "investor")).articles 1 none 0 0).map
      (fun r => r.article_count) = [1] ∧
     bucketTotalsFor
        (applyUpdate (replayInserts [⟨1, 1, 0, some "positive", some "customer", none⟩])
          1 (some "positive") (some "investor")).buckets 1 0 = 2 ∧
     (lookupBucket
        (applyUpdate (replayInserts [⟨1, 1, 0, some "positive", some "customer", none⟩])
          1 (some "positive") (some "investor")).buckets (1, "customer", 0)).isSome
       = true ∧
     calculate_sentiment_trend
        (applyUpdate (replayInserts [⟨1, 1, 0, some "positive", some "customer", none⟩])
          1 (some "positive") (some "investor")).articles 1 (some "customer") 0 0
       = []) := by
  with_unfolding_all decide

/-- C3 as amended: over histories of inserts only — a classification update
can strand a stale bucket at the article's old key, breaking the
correspondence in both directions even when every article is fully
classified (see the second half of the counterexample) — (a) with a
stakeholder filter, every trend-query row matches the trigger-maintained
bucket of its key: same article count, and the same mean once the bucket's
exact mean is rounded to the query's 2 decimals; and every stored bucket of
an in-range key yields a query row; (b) with the filter absent, the daily
query totals equal the sum of bucket totals across stakeholders provided
every labeled article also carries a stakeholder (an article with a label
but `NULL` stakeholder is counted by the query yet never reaches any
bucket, per the first half of the counterexample). -/
theorem claim_C3_amended (inserts : List Article) (c : Nat) (st : String) (sD eD : Int) :
    (∀ r ∈ calculate_sentiment_trend (replayInserts inserts).articles c (some st) sD eD,
      ∃ b, lookupBucket (replayInserts inserts).buckets (c, st, r.date) = some b ∧
        r.article_count = b.total_articles ∧
        r.avg_sentiment = round2 b.avg_sentiment_score) ∧
    (∀ d : Int, sD ≤ d → d ≤ eD →
      ∀ b, lookupBucket (replayInserts inserts).buckets (c, st, d) = some b →
        ∃ r ∈ calculate_sentiment_trend (replayInserts inserts).articles c (some st) sD eD,
          r.date = d) ∧
    ((∀ a ∈ inserts, a.sentiment_score.isSome = true → a.stakeholder_type.isSome = true) →
      ∀ r ∈ calculate_sentiment_trend (replayInserts inserts).articles c none sD eD,
        r.article_count = bucketTotalsFor (replayInserts inserts).buckets c r.date) := by
  rcases replay_buckets_invariant inserts with ⟨hnd, hval, hcomp⟩
  have harts := replayInserts_articles inserts
  refine ⟨?_, ?_, ?_⟩
  · intro r hr
    unfold calculate_sentiment_trend at hr
    rcases List.mem_filterMap.mp hr with ⟨d, hd, hgd⟩
    rcases trendRowFor_eq_some hgd with ⟨hne, hreq⟩
    subst hreq
    rw [harts] at hne
    have hne' : keyFilter inserts c st d ≠ [] := hne
    rcases List.mem_map.mp (hcomp c st d hne') with ⟨e, he, hek⟩
    have hsome : ((replayInserts inserts).buckets.find?
        (fun e => e.1 == ((c, st, d) : BucketKey))).isSome = true := by
      rw [List.find?_isSome]
      exact ⟨e, he, beq_iff_eq.mpr hek⟩
    rcases Option.isSome_iff_exists.mp hsome with ⟨e', hfe⟩
    have he'mem := List.mem_of_find?_eq_some hfe
    have hp0 := List.find?_some hfe
    have hp' : (e'.1 == ((c, st, d) : BucketKey)) = true := hp0
    have he'key : e'.1 = ((c, st, d) : BucketKey) := beq_iff_eq.mp hp'
    have hv := (hval e' he'mem).2
    rw [he'key] at hv
    refine ⟨e'.2, ?_, ?_, ?_⟩
    · unfold lookupBucket
      rw [hfe]
      rfl
    · rw [hv, harts]
      rfl
    · rw [hv, harts]
      rfl
  · intro d h1 h2 b hb
    unfold lookupBucket at hb
    rcases Option.map_eq_some'.mp hb with ⟨e, hfe, hbe⟩
    have hemem := List.mem_of_find?_eq_some hfe
    have hp0 := List.find?_some hfe
    have hp' : (e.1 == ((c, st, d) : BucketKey)) = true := hp0
    have hekey : e.1 = ((c, st, d) : BucketKey) := beq_iff_eq.mp hp'
    have hne := (hval e hemem).1
    rw [hekey] at hne
    have hneQ : (replayInserts inserts).articles.filter (trendFilter c (some st) d) ≠ [] := by
      rw [harts]
      exact hne
    exact ⟨_, List.mem_filterMap.mpr ⟨d, mem_dateRange.mpr ⟨h1, h2⟩,
      trendRowFor_of_ne hneQ⟩, rfl⟩
  · intro hcls r hr
    unfold calculate_sentiment_trend at hr
    rcases List.mem_filterMap.mp hr with ⟨d, hd, hgd⟩
    rcases trendRowFor_eq_some hgd with ⟨hne, hreq⟩
    subst hreq
    show ((replayInserts inserts).articles.filter (trendFilter c none d)).length
      = bucketTotalsFor (replayInserts inserts).buckets c d
    rw [harts, bucketTotalsFor_eq_countP inserts c d
      (fun a ha hq => hcls a ha (qualifies_components hq).2.2)]
    have hqf : inserts.filter (trendFilter c none d) = inserts.filter (qualifies c d) :=
      List.filter_congr (fun a _ => by simp [trendFilter, qualifies, stakeholderOk])
    rw [hqf]
    exact (List.countP_eq_length_filter (qualifies c d) inserts).symm

/-- witness for the amended C3: one classified article, and the query row
matches the trigger-written bucket. -/
theorem claim_C3_witness :
    ∃ b, lookupBucket (replayInserts
          [⟨1, 1, 0, some "positive", some "customer", none⟩]).buckets
        (1, "customer", (⟨0, 1, 1, 100⟩ : TrendRow).date) = some b ∧
      (⟨0, 1, 1, 100⟩ : TrendRow).article_count = b.total_articles ∧
      (⟨0, 1, 1, 100⟩ : TrendRow).avg_sentiment = round2 b.avg_sentiment_score :=
  (claim_C3_amended [⟨1, 1, 0, some "positive", some "customer", none⟩] 1 "customer" 0 0).1
    ⟨0, 1, 1, 100⟩ (by with_unfolding_all decide)

/-- counterexample to C7 as stated: with `LIMIT 1` and a keyword of
frequency 3 present, the keyword `k2`, mentioned exactly twice in range,
does not appear in the output at all. -/
theorem claim_C7_counterexample :
    (keywordPairs [⟨1, 1, 0, some "neutral", none, some ["k1"]⟩,
        ⟨2, 1, 0, some "neutral", none, some ["k1"]⟩,
        ⟨3, 1, 0, some "neutral", none, some ["k1", "k2"]⟩,
        ⟨4, 1, 0, some "neutral", none, some ["k2"]⟩] 1 0 10).countP
      (fun p => p.1 == "k2") = 2 ∧
    (analyze_keyword_frequency [⟨1, 1, 0, some "neutral", none, some ["k1"]⟩,
        ⟨2, 1, 0, some "neutral", none, some ["k1"]⟩,
        ⟨3, 1, 0, some "neutral", none, some ["k1", "k2"]⟩,
        ⟨4, 1, 0, some "neutral", none, some ["k2"]⟩] 1 0 10 1).map
      (fun r => r.keyword) = ["k1"] := by
  with_unfolding_all decide

/-- C7 as amended: the analyzer groups the keyword expansion of qualifying
articles by keyword; a keyword of frequency 1 never appears; every output
row carries the keyword's true frequency (at least 2); rows are ordered by
frequency descending then mean sentiment descending; at most `limit` rows
are returned; and a keyword of frequency 2 appears, with frequency 2,
whenever the number of distinct keywords of frequency at least 2 does not
exceed `limit` (the `LIMIT` clause can otherwise cut it off). -/
theorem claim_C7_amended (arts : List Article) (c : Nat) (sD eD : Int) (limit : Nat) :
    (analyze_keyword_frequency arts c sD eD limit).length ≤ limit ∧
    List.Pairwise kwOrder (analyze_keyword_frequency arts c sD eD limit) ∧
    (∀ r ∈ analyze_keyword_frequency arts c sD eD limit,
      2 ≤ r.frequency ∧
      r.frequency = (keywordPairs arts c sD eD).countP (fun p => p.1 == r.keyword)) ∧
    (∀ k : String, (keywordPairs arts c sD eD).countP (fun p => p.1 == k) = 1 →
      ∀ r ∈ analyze_keyword_frequency arts c sD eD limit, r.keyword ≠ k) ∧
    ((((keywordPairs arts c sD eD).map (fun p => p.1)).dedup.countP
        (fun k => decide (2 ≤ (keywordPairs arts c sD eD).countP (fun p => p.1 == k)))
        ≤ limit) →
      ∀ k : String, (keywordPairs arts c sD eD).countP (fun p => p.1 == k) = 2 →
        ∃ r ∈ analyze_keyword_frequency arts c sD eD limit,
          r.keyword = k ∧ r.frequency = 2) := by
  refine ⟨?_, ?_, ?_, ?_, ?_⟩
  · simp only [analyze_keyword_frequency]
    exact List.length_take_le _ _
  · simp only [analyze_keyword_frequency]
    exact List.Pairwise.sublist (List.take_sublist _ _)
      (List.sorted_insertionSort kwOrder _)
  · intro r hr
    rcases analyze_mem hr with ⟨k, hk, hrk, hf⟩
    refine ⟨hf, ?_⟩
    rw [hrk, keywordRowFor_keyword, keywordRowFor_frequency]
  · intro k h1 r hr
    rcases analyze_mem hr with ⟨k', hk', hrk, hf⟩
    intro hkk
    rw [hrk, keywordRowFor_keyword] at hkk
    subst hkk
    rw [hrk, keywordRowFor_frequency, h1] at hf
    omega
  · intro hbound k hk2
    have hkmem : k ∈ ((keywordPairs arts c sD eD).map (fun p => p.1)).dedup := by
      have hpos : 0 < (keywordPairs arts c sD eD).countP (fun p => p.1 == k) := by
        rw [hk2]; omega
      rcases List.countP_pos_iff.mp hpos with ⟨p, hp, hpk⟩
      exact List.mem_dedup.mpr (List.mem_map.mpr ⟨p, hp, beq_iff_eq.mp hpk⟩)
    have hkeptlen :
        ((((keywordPairs arts c sD eD).map (fun p => p.1)).dedup.map
            (keywordRowFor (keywordPairs arts c sD eD))).filter
            (fun r => decide (2 ≤ r.frequency))).length
          = ((keywordPairs arts c sD eD).map (fun p => p.1)).dedup.countP
            (fun k => decide (2 ≤ (keywordPairs arts c sD eD).countP
              (fun p => p.1 == k))) := by
      rw [← List.countP_eq_length_filter, List.countP_map]
      refine List.countP_congr fun k' hk' => ?_
      show (decide (2 ≤ (keywordRowFor (keywordPairs arts c sD eD) k').frequency) = true)
        ↔ (decide (2 ≤ (keywordPairs arts c sD eD).countP (fun p => p.1 == k')) = true)
      rw [keywordRowFor_frequency]
    have hrowmem : keywordRowFor (keywordPairs arts c sD eD) k
        ∈ (((keywordPairs arts c sD eD).map (fun p => p.1)).dedup.map
            (keywordRowFor (keywordPairs arts c sD eD))).filter
            (fun r => decide (2 ≤ r.frequency)) := by
      refine List.mem_filter.mpr ⟨List.mem_map.mpr ⟨k, hkmem, rfl⟩, ?_⟩
      rw [keywordRowFor_frequency, hk2]
      rfl
    have hsortlen : (List.insertionSort kwOrder
        ((((keywordPairs arts c sD eD).map (fun p => p.1)).dedup.map
            (keywordRowFor (keywordPairs arts c sD eD))).filter
            (fun r => decide (2 ≤ r.frequency)))).length ≤ limit := by
      rw [List.length_insertionSort, hkeptlen]
      exact hbound
    refine ⟨keywordRowFor (keywordPairs arts c sD eD) k, ?_, rfl, ?_⟩
    · simp only [analyze_keyword_frequency]
      rw [List.take_of_length_le hsortlen]
      exact (List.perm_insertionSort kwOrder _).mem_iff.mpr hrowmem
    · rw [keywordRowFor_frequency, hk2]

/-- witness for the amended C7: two articles each mentioning `k2` once give
it frequency 2 and it appears in the output. -/
theorem claim_C7_witness :
    ∃ r ∈ analyze_keyword_frequency
        [⟨3, 1, 0, some "neutral", none, some ["k2"]⟩,
         ⟨4, 1, 0, some "neutral", none, some ["k2"]⟩] 1 0 10 20,
      r.keyword = "k2" ∧ r.frequency = 2 :=
  (claim_C7_amended [⟨3, 1, 0, some "neutral", none, some ["k2"]⟩,
      ⟨4, 1, 0, some "neutral", none, some ["k2"]⟩] 1 0 10 20).2.2.2.2
    (by decide) "k2" (by decide)

/-- counterexample to C9 as stated: an active company with zero articles
appears with an all-time mean of 0.00 — a defined value, not an undefined
mean — because the view's unfiltered `AVG` aggregates the dangling LEFT
JOIN row through the non-strict mapper as `sentiment_to_numeric(NULL) = 0`;
only the `FILTER`ed 7-day and 30-day means are `NULL`. -/
theorem claim_C9_counterexample :
    (company_sentiment_summary [⟨1, "acme", none, true⟩] [] 110).map
      (fun r => (r.total_articles, r.avg_sentiment_all_time, r.avg_sentiment_7days,
        r.avg_sentiment_30days)) = [(0, some 0, none, none)] := by
  with_unfolding_all decide

/-- C9 as amended: the company rolling summary returns one row per active
company, in order; a company with zero articles still appears, with zero
counts, `NULL` 7-day and 30-day means and latest date, and an all-time mean
of 0.00 (the dangling LEFT JOIN row through the non-strict mapper), rather
than being dropped or erroring; and a company with no articles in the
trailing 7 days but some in the trailing 30 days gets a row with 7-day
count 0 and positive 30-day count — all without error (the view is a total
function). -/
theorem claim_C9_amended (companies : List Company) (arts : List Article) (today : Int) :
    ((company_sentiment_summary companies arts today).map (fun r => r.company_id)
        = (companies.filter (fun c => c.is_active)).map (fun c => c.id)) ∧
    (∀ c ∈ companies, c.is_active = true →
      arts.filter (fun a => a.company_id == c.id) = [] →
      ∃ row ∈ company_sentiment_summary companies arts today,
        row.company_id = c.id ∧ row.total_articles = 0 ∧
        row.articles_last_7days = 0 ∧ row.articles_last_30days = 0 ∧
        row.avg_sentiment_all_time = some 0 ∧ row.avg_sentiment_7days = none ∧
        row.avg_sentiment_30days = none ∧ row.latest_article_date = none) ∧
    (∀ c ∈ companies, c.is_active = true →
      arts.filter (fun a => a.company_id == c.id &&
        decide (today - 7 ≤ a.published_date)) = [] →
      arts.filter (fun a => a.company_id == c.id &&
        decide (today - 30 ≤ a.published_date)) ≠ [] →
      ∃ row ∈ company_sentiment_summary companies arts today,
        row.company_id = c.id ∧ row.articles_last_7days = 0 ∧
        0 < row.articles_last_30days) := by
  refine ⟨?_, ?_, ?_⟩
  · unfold company_sentiment_summary
    rw [List.map_map]
    rfl
  · intro c hc hact h
    refine ⟨_, List.mem_map.mpr ⟨c, List.mem_filter.mpr ⟨hc, hact⟩, rfl⟩,
      rfl, ?_, ?_, ?_, ?_, ?_, ?_, ?_⟩
    · show (arts.filter (fun a => a.company_id == c.id)).length = 0
      rw [h]
      rfl
    · show ((arts.filter (fun a => a.company_id == c.id)).filter
          (fun a => decide (today - 7 ≤ a.published_date))).length = 0
      rw [h]
      rfl
    · show ((arts.filter (fun a => a.company_id == c.id)).filter
          (fun a => decide (today - 30 ≤ a.published_date))).length = 0
      rw [h]
      rfl
    · exact summaryRowFor_avg_all_of_empty h
    · show avgOpt (((arts.filter (fun a => a.company_id == c.id)).filter
          (fun a => decide (today - 7 ≤ a.published_date))).map
          (fun a => sentiment_to_numeric a.sentiment_score)) = none
      rw [h]
      rfl
    · show avgOpt (((arts.filter (fun a => a.company_id == c.id)).filter
          (fun a => decide (today - 30 ≤ a.published_date))).map
          (fun a => sentiment_to_numeric a.sentiment_score)) = none
      rw [h]
      rfl
    · show ((arts.filter (fun a => a.company_id == c.id)).map
          (fun a => a.published_date)).max? = none
      rw [h]
      rfl
  · intro c hc hact h7 h30
    refine ⟨_, List.mem_map.mpr ⟨c, List.mem_filter.mpr ⟨hc, hact⟩, rfl⟩,
      rfl, ?_, ?_⟩
    · show ((arts.filter (fun a => a.company_id == c.id)).filter
          (fun a => decide (today - 7 ≤ a.published_date))).length = 0
      rw [filter_company_window, h7]
      rfl
    · show 0 < ((arts.filter (fun a => a.company_id == c.id)).filter
          (fun a => decide (today - 30 ≤ a.published_date))).length
      rw [filter_company_window]
      exact List.length_pos.mpr h30

/-- witness for the amended C9 at scenario D: one active company whose only
article is 23 days old has 7-day count 0 and 30-day count 1. -/
theorem claim_C9_witness :
    ∃ row ∈ company_sentiment_summary [⟨1, "acme", none, true⟩]
        [⟨2, 1, 80, none, none, none⟩] 110,
      row.company_id = 1 ∧ row.articles_last_7days = 0 ∧ 0 < row.articles_last_30days :=
  (claim_C9_amended [⟨1, "acme", none, true⟩] [⟨2, 1, 80, none, none, none⟩] 110).2.2
    ⟨1, "acme", none, true⟩ (List.mem_singleton.mpr rfl) rfl (by decide) (by decide)

/-- C10: the mapper sends a SQL `NULL` label to 0 (the `CASE` comparison
falls through to `ELSE`), and the company rolling summary filters nothing on
the label: every article of an active company, classified or not, is counted
in the total and in both windows, and an unclassified article contributes
the value 0 (not an excluded `NULL`) to each average-sentiment field.  The
all-time equation is stated for companies with at least one article; a
zero-article company's all-time mean is the dangling-row value 0.00 (see
the C9 correction). -/
theorem claim_C10 :
    sentiment_to_numeric none = 0 ∧
    (∀ s : String, sentiment_to_numeric (some s) = sentiment_label_value s) ∧
    (∀ (companies : List Company) (arts : List Article) (today : Int),
      ∀ row ∈ company_sentiment_summary companies arts today,
        row.total_articles
            = (arts.filter (fun a => a.company_id == row.company_id)).length ∧
        row.articles_last_7days
            = (arts.filter (fun a => a.company_id == row.company_id &&
                decide (today - 7 ≤ a.published_date))).length ∧
        row.articles_last_30days
            = (arts.filter (fun a => a.company_id == row.company_id &&
                decide (today - 30 ≤ a.published_date))).length ∧
        ((arts.filter (fun a => a.company_id == row.company_id)) ≠ [] →
          row.avg_sentiment_all_time
            = some (round2 ((((((arts.filter (fun a => a.company_id == row.company_id)).map
                (fun a => (match a.sentiment_score with
                  | none => 0
                  | some s => sentiment_label_value s : Int))).sum : Int) : ℚ)) /
              (((arts.filter (fun a => a.company_id == row.company_id)).length : Nat) : ℚ)))) ∧
        row.avg_sentiment_7days
            = avgOpt ((arts.filter (fun a => a.company_id == row.company_id &&
                decide (today - 7 ≤ a.published_date))).map
                (fun a => match a.sentiment_score with
                  | none => 0
                  | some s => sentiment_label_value s)) ∧
        row.avg_sentiment_30days
            = avgOpt ((arts.filter (fun a => a.company_id == row.company_id &&
                decide (today - 30 ≤ a.published_date))).map
                (fun a => match a.sentiment_score with
                  | none => 0
                  | some s => sentiment_label_value s))) := by
  refine ⟨rfl, fun s => sentiment_to_numeric_eq (some s), ?_⟩
  intro companies arts today row hrow
  rcases List.mem_map.mp hrow with ⟨c, hcmem, hrw⟩
  subst hrw
  refine ⟨rfl, ?_, ?_, ?_, ?_, ?_⟩
  · show ((arts.filter (fun a => a.company_id == c.id)).filter
        (fun a => decide (today - 7 ≤ a.published_date))).length
      = (arts.filter (fun a => a.company_id == c.id &&
          decide (today - 7 ≤ a.published_date))).length
    rw [filter_company_window]
  · show ((arts.filter (fun a => a.company_id == c.id)).filter
        (fun a => decide (today - 30 ≤ a.published_date))).length
      = (arts.filter (fun a => a.company_id == c.id &&
          decide (today - 30 ≤ a.published_date))).length
    rw [filter_company_window]
  · intro hne
    rw [summaryRowFor_avg_all_of_ne hne]
    rw [List.map_congr_left (fun a _ => sentiment_to_numeric_eq a.sentiment_score)]
    rfl
  · show avgOpt (((arts.filter (fun a => a.company_id == c.id)).filter
        (fun a => decide (today - 7 ≤ a.published_date))).map
        (fun a => sentiment_to_numeric a.sentiment_score))
      = avgOpt ((arts.filter (fun a => a.company_id == c.id &&
          decide (today - 7 ≤ a.published_date))).map
        (fun a => match a.sentiment_score with
          | none => 0
          | some s => sentiment_label_value s))
    rw [filter_company_window]
    exact congrArg avgOpt
      (List.map_congr_left (fun a _ => sentiment_to_numeric_eq a.sentiment_score))
  · show avgOpt (((arts.filter (fun a => a.company_id == c.id)).filter
        (fun a => decide (today - 30 ≤ a.published_date))).map
        (fun a => sentiment_to_numeric a.sentiment_score))
      = avgOpt ((arts.filter (fun a => a.company_id == c.id &&
          decide (today - 30 ≤ a.published_date))).map
        (fun a => match a.sentiment_score with
          | none => 0
          | some s => sentiment_label_value s))
    rw [filter_company_window]
    exact congrArg avgOpt
      (List.map_congr_left (fun a _ => sentiment_to_numeric_eq a.sentiment_score))

/-- witness for C10: with one labeled and one unlabeled article, the
summary's total counts both. -/
theorem claim_C10_witness :
    (⟨1, "acme", none, 2, 0, 2, some (1/2), none, some (1/2), some 100⟩
        : SummaryRow).total_articles
      = (([⟨1, 1, 100, some "positive", none, none⟩,
           ⟨2, 1, 80, none, none, none⟩] : List Article).filter
          (fun a => a.company_id ==
            (⟨1, "acme", none, 2, 0, 2, some (1/2), none, some (1/2), some 100⟩
              : SummaryRow).company_id)).length :=
  (claim_C10.2.2 [⟨1, "acme", none, true⟩]
    [⟨1, 1, 100, some "positive", none, none⟩, ⟨2, 1, 80, none, none, none⟩] 110
    ⟨1, "acme", none, 2, 0, 2, some (1/2), none, some (1/2), some 100⟩
    (by with_unfolding_all decide)).1

end SentimentPlatform
